import Mathlib

/-!
Verification of the ReacType marketplace controller and the HTMLItem panel
component, shallowly embedded in Lean 4.

Backend (marketplaceController): `publishProject`, `unpublishProject` and
`cloneProject` operate over a list of persisted project documents standing
for the MongoDB `Projects` collection.  `findOneAndUpdate` is modelled as
first-match update with optional upsert; `create` appends a document whose
id Mongo generates (passed in as `freshId`).

Frontend (HTMLItem): `handleClick` is modelled as the list of effects it
performs in order (a Redux dispatch, then a socket emit guarded by the
room code's truthiness); the component's render is modelled as the list of
conditional blocks it produces.
-/

namespace ReacType

/-- The nested `project` payload carried in a request body or stored inside
a persisted document.  `innerId` and `innerPublished` stand for the
payload's own optional `_id` and `published` fields (present = `some`),
`forked` for its boolean forked flag, and `content` for the remaining
opaque serialized tree data. -/
structure ProjectPayload where
  innerId : Option Nat
  innerPublished : Option Bool
  forked : Bool
  content : Nat
deriving DecidableEq, Repr

/-- A persisted document of the `Projects` collection: Mongo `_id`
(`docId`), the nested project payload, timestamps, the publication flag,
comments, display name, owning user's id and username, and the optional
top-level `forked` provenance string set by cloning. -/
structure ProjectDoc where
  docId : Nat
  project : ProjectPayload
  createdAt : Nat
  published : Bool
  comments : List String
  name : String
  userId : String
  username : String
  forkedTag : Option String
deriving DecidableEq, Repr

/-- The backing store: the list of persisted project documents. -/
abbrev DB := List ProjectDoc

/-- Replace the first document matching `filter` by its image under `f`
(the update step of Mongo's `findOneAndUpdate`). -/
def updateFirst (filter : ProjectDoc → Bool) (f : ProjectDoc → ProjectDoc) :
    DB → DB
  | [] => []
  | d :: ds => if filter d then f d :: ds else d :: updateFirst filter f ds

/-- Mongo `findOneAndUpdate` with `new: true`: update the first document
matching `filter` and return it; when none matches, insert `upsertDoc`
when provided (the `upsert: true` option), otherwise leave the store
unchanged and return `none`. -/
def findOneAndUpdate (db : DB) (filter : ProjectDoc → Bool)
    (f : ProjectDoc → ProjectDoc) (upsertDoc : Option ProjectDoc) :
    Option ProjectDoc × DB :=
  match db.find? filter with
  | some d => (some (f d), updateFirst filter f db)
  | none =>
    match upsertDoc with
    | some nd => (some nd, db ++ [nd])
    | none => (none, db)

/-- The request body of a publish: the `_id` field (`none` models a value
that fails `mongoose.isValidObjectId`, such as an empty string), the
nested project payload, comments and name. -/
structure PublishReq where
  reqId : Option Nat
  project : ProjectPayload
  comments : List String
  name : String
deriving DecidableEq, Repr

/-- The requester's session identity taken from cookies: `ssid` (the user
id) and `username`. -/
structure Session where
  ssid : String
  username : String
deriving DecidableEq, Repr

/-- `mongoose.isValidObjectId` on the modelled `_id` field. -/
def isValidObjectId : Option Nat → Bool
  | some _ => true
  | none => false

/-- Removing the `published` and `_id` fields from a copied payload, as
both branches of `publishProject` do before persisting. -/
def stripPubAndId (p : ProjectPayload) : ProjectPayload :=
  { p with innerId := none, innerPublished := none }

/-- `marketplaceController.publishProject`: when the request's `_id` is a
valid object id, `findOneAndUpdate` by `_id` alone with `upsert: true`
(updating or inserting a document with the request's payload stripped of
its own `published`/`_id`, the current time, `published: true`, and the
session's identity); otherwise `create` a fresh document the same way.
Returns the persisted document (`res.locals.publishedProject`) and the
resulting store. -/
def publishProject (db : DB) (req : PublishReq) (sess : Session)
    (now freshId : Nat) : ProjectDoc × DB :=
  match req.reqId with
  | some i =>
    let noPub := stripPubAndId req.project
    let upd : ProjectDoc → ProjectDoc := fun d =>
      { d with project := noPub, createdAt := now, published := true,
               comments := req.comments, name := req.name,
               userId := sess.ssid, username := sess.username }
    let inserted : ProjectDoc :=
      { docId := i, project := noPub, createdAt := now, published := true,
        comments := req.comments, name := req.name, userId := sess.ssid,
        username := sess.username, forkedTag := none }
    match findOneAndUpdate db (fun d => d.docId == i) upd (some inserted) with
    | (some r, db') => (r, db')
    | (none, db') => (inserted, db')
  | none =>
    let noId := stripPubAndId req.project
    let created : ProjectDoc :=
      { docId := freshId, project := noId, createdAt := now,
        published := true, comments := req.comments, name := req.name,
        userId := sess.ssid, username := sess.username, forkedTag := none }
    (created, db ++ [created])

/-- `marketplaceController.unpublishProject`: `findOneAndUpdate` filtered
by both `_id` and the session's `userId`, setting `published: false`; when
no document matches (wrong owner or unknown id) the callback receives
`null` and the error path is taken. -/
def unpublishProject (db : DB) (i : Nat) (ssid : String) :
    Except String ProjectDoc × DB :=
  match findOneAndUpdate db (fun d => d.docId == i && d.userId == ssid)
      (fun d => { d with published := false }) none with
  | (some r, db') => (Except.ok r, db')
  | (none, db') =>
    (Except.error "Error in marketplaceController.unpublishProject", db')

/-- `marketplaceController.cloneProject`: find the source by `_id`
(`docId` route parameter); on success copy it, set the copy's `userId` to
the requester's ssid, set the payload's `forked` flag, reset `published`,
set the provenance tag from the source owner's username, switch `username`
to the requester's, drop the old `_id` (Mongo generates `freshId` on
`create`), stamp `createdAt`, and insert the copy.  A missing source makes
`originalProject.toObject` throw, taking the error path. -/
def cloneProject (db : DB) (docId : Nat) (sess : Session)
    (now freshId : Nat) : Except String ProjectDoc × DB :=
  match db.find? (fun d => d.docId == docId) with
  | none => (Except.error "Error in marketplaceController.cloneProject", db)
  | some orig =>
    let updated : ProjectDoc :=
      { orig with
        userId := sess.ssid,
        project := { orig.project with forked := true },
        published := false,
        forkedTag := some ("Forked from " ++ orig.username),
        username := sess.username,
        docId := freshId,
        createdAt := now }
    (Except.ok updated, db ++ [updated])

/-- The `contextParam` bag built by `handleClick`; `allContext` is the list
of inherited context entries (empty in the constructed payload). -/
structure ContextParam where
  allContext : List String
deriving DecidableEq, Repr

/-- The `childData` payload `handleClick` builds and both dispatches to the
Redux store and emits over the socket. -/
structure ChildPayload where
  type : String
  typeId : Int
  childId : Option Nat
  contextParam : ContextParam
deriving DecidableEq, Repr

/-- An observable effect of the component: a Redux `dispatch(addChild _)`
to the local store, or a socket `emitEvent name roomCode payload` to the
relay. -/
inductive Effect where
  | dispatchAddChild (payload : ChildPayload)
  | emitEvent (eventName : String) (roomCode : String) (payload : ChildPayload)
deriving DecidableEq, Repr

/-- Whether an effect is a relay emit. -/
def Effect.isEmit : Effect → Bool
  | .emitEvent _ _ _ => true
  | _ => false

/-- JavaScript truthiness of the `roomCode` selector value: `null` and the
empty string are falsy. -/
def truthy : Option String → Bool
  | none => false
  | some s => s ≠ ""

/-- `HTMLItem`'s `handleClick`, as the ordered list of effects it performs:
build `childData`, dispatch `addChild(childData)` to the local store, then
— only when `roomCode` is truthy — emit the `addChildAction` event with
the same payload.  Nothing is awaited; the effects occur in list order. -/
def handleClick (id : Int) (roomCode : Option String) : List Effect :=
  let childData : ChildPayload :=
    { type := "HTML Element", typeId := id, childId := none,
      contextParam := { allContext := [] } }
  [Effect.dispatchAddChild childData] ++
    (if truthy roomCode then
      [Effect.emitEvent "addChildAction" (roomCode.getD "") childData]
    else [])

/-- One conditional block of `HTMLItem`'s render: the `id <= 20` div
(icon + name, no delete control) or the `id > 20` div (name plus an `X`
button whose click runs `deleteAllInstances id`, offering deletion of all
instances of element type `deleteId`). -/
inductive PanelBlock where
  | builtinDiv (name : String)
  | customDiv (name : String) (deleteId : Int)
deriving DecidableEq, Repr

/-- The render of `HTMLItem` for a catalog element `(name, id)`: the grid
contains the `id <= 20` block or the `id > 20` block. -/
def renderHTMLItem (name : String) (id : Int) : List PanelBlock :=
  (if id ≤ 20 then [PanelBlock.builtinDiv name] else []) ++
    (if id > 20 then [PanelBlock.customDiv name id] else [])

/-- Whether a rendered block carries the delete affordance. -/
def PanelBlock.offersDelete : PanelBlock → Bool
  | .customDiv _ _ => true
  | .builtinDiv _ => false

/-- Modelled from the spec: a `MutationIntent` applied to the Project Tree
Store — the Redux reducers of `appStateSlice` are not part of the given
sources, so the intent language follows §3/§4.1 of the spec: add a child
from a payload, delete every node of a type id, or update a node's context. -/
inductive MutationIntent where
  | addChildIntent (payload : ChildPayload)
  | deleteAllIntent (typeId : Int)
  | updateIntent (nodeId : Nat) (patch : ContextParam)
deriving DecidableEq, Repr

/-- Modelled from the spec: a node of the Project Tree — the tree data
structure lives in the Redux store outside the given sources; per §3 a
`ComponentNode` carries its type, typeId, id, context, and children. -/
inductive Tree where
  | node (nodeId : Nat) (type : String) (typeId : Int)
      (contextParam : ContextParam) (children : List Tree)

/-- The typeId of the root node. -/
def Tree.rootTypeId : Tree → Int
  | .node _ _ t _ _ => t

mutual

/-- Modelled from the spec: `deleteAll(typeId)` removes every node whose
typeId matches, anywhere in the tree (§4.1: a tree-wide filter, not a
subtree removal); surviving nodes keep their filtered children. -/
def deleteAllNodes (typeId : Int) : Tree → List Tree
  | .node i ty t c ch =>
    let rest := deleteAllList typeId ch
    if t == typeId then rest else [Tree.node i ty t c rest]

/-- `deleteAllNodes` mapped across a forest. -/
def deleteAllList (typeId : Int) : List Tree → List Tree
  | [] => []
  | x :: xs => deleteAllNodes typeId x ++ deleteAllList typeId xs

end

mutual

/-- Modelled from the spec: `update(nodeId, patch)` replaces the context of
the node with the given id (§4.1). -/
def updateNode (nodeId : Nat) (patch : ContextParam) : Tree → Tree
  | .node i ty t c ch =>
    if i == nodeId then Tree.node i ty t patch (updateList nodeId patch ch)
    else Tree.node i ty t c (updateList nodeId patch ch)

/-- `updateNode` mapped across a forest. -/
def updateList (nodeId : Nat) (patch : ContextParam) : List Tree → List Tree
  | [] => []
  | x :: xs => updateNode nodeId patch x :: updateList nodeId patch xs

end

mutual

/-- Modelled from the spec: count of nodes, used to mint the next node id
deterministically so replay on any peer creates the same node. -/
def Tree.size : Tree → Nat
  | .node _ _ _ _ ch => 1 + Tree.sizeList ch

/-- Total size of a forest. -/
def Tree.sizeList : List Tree → Nat
  | [] => 0
  | x :: xs => Tree.size x + Tree.sizeList xs

end

/-- Modelled from the spec: the pure mutation function from (prior tree,
intent) to new tree (§4.1); `addChild` places a new `ComponentNode` built
from the payload under the root. -/
def applyIntent (t : Tree) : MutationIntent → Tree
  | .addChildIntent p =>
    match t with
    | .node i ty ti c ch =>
      Tree.node i ty ti c
        (ch ++ [Tree.node t.size p.type p.typeId p.contextParam []])
  | .deleteAllIntent typeId =>
    match t with
    | .node i ty ti c ch => Tree.node i ty ti c (deleteAllList typeId ch)
  | .updateIntent nodeId patch => updateNode nodeId patch t

/-- Replaying a sequence of intents against a store, in order. -/
def replay (intents : List MutationIntent) (t : Tree) : Tree :=
  intents.foldl applyIntent t

/-! Concrete fixtures used by counterexamples and witnesses. -/

/-- A sample nested payload, carrying its own `_id` and `published`. -/
def alicePayload : ProjectPayload :=
  { innerId := some 7, innerPublished := some true, forked := false,
    content := 42 }

/-- A persisted project owned by alice. -/
def aliceDoc : ProjectDoc :=
  { docId := 1, project := alicePayload, createdAt := 100, published := true,
    comments := ["nice"], name := "todo-app", userId := "alice-id",
    username := "alice", forkedTag := none }

/-- Bob's session identity. -/
def bobSess : Session := { ssid := "bob-id", username := "bob" }

/-- A publish request from bob naming alice's project by its `_id`. -/
def bobPublishReq : PublishReq :=
  { reqId := some 1, project := alicePayload, comments := [], name := "taken" }

/-- The `childData` payload `handleClick` builds for an element of id 3. -/
def demoChildPayload : ChildPayload :=
  { type := "HTML Element", typeId := 3, childId := none,
    contextParam := { allContext := [] } }

/-- A one-node project tree (the canvas root). -/
def demoTree : Tree := Tree.node 0 "App" 0 { allContext := [] } []

/-! Helper lemmas about the store primitives. -/

/-- `updateFirst` skips a prefix in which nothing matches. -/
theorem updateFirst_append_left_none (filter : ProjectDoc → Bool)
    (f : ProjectDoc → ProjectDoc) (l1 l2 : DB)
    (h : l1.find? filter = none) :
    updateFirst filter f (l1 ++ l2) = l1 ++ updateFirst filter f l2 := by
  induction l1 with
  | nil => rfl
  | cons a l ih =>
    cases hpa : filter a with
    | true => simp [List.find?_cons, hpa] at h
    | false =>
      simp only [List.find?_cons, hpa] at h
      simp [updateFirst, hpa, ih h]

/-- The document `findOneAndUpdate` updates is in the updated store. -/
theorem mem_updateFirst_of_find? (filter : ProjectDoc → Bool)
    (f : ProjectDoc → ProjectDoc) :
    ∀ {db : DB} {d : ProjectDoc}, db.find? filter = some d →
      f d ∈ updateFirst filter f db := by
  intro db
  induction db with
  | nil => intro d h; simp [List.find?] at h
  | cons a l ih =>
    intro d h
    cases hpa : filter a with
    | true =>
      simp only [List.find?_cons, hpa] at h
      cases h
      simp [updateFirst, hpa]
    | false =>
      simp only [List.find?_cons, hpa] at h
      simp [updateFirst, hpa, ih h]

/-! Claim theorems. -/

/-- C4: for every add-child gesture handled by the panel item, the mutation
intent is emitted to the Event Relay only when the current RoomCode is
non-null; when RoomCode is absent, no intent is ever forwarded to the
relay. -/
theorem C4_no_emit_without_room (id : Int) (roomCode : Option String) :
    (∀ e ∈ handleClick id roomCode, Effect.isEmit e = true → roomCode ≠ none) ∧
    (roomCode = none → ∀ e ∈ handleClick id roomCode, Effect.isEmit e = false) := by
  constructor
  · intro e he hemit
    cases roomCode with
    | none =>
      simp [handleClick, truthy] at he
      rw [he] at hemit
      simp [Effect.isEmit] at hemit
    | some s => simp
  · intro hnone e he
    subst hnone
    simp [handleClick, truthy] at he
    rw [he]
    rfl

/-- C4 witness: with no room code, the single effect of a click on element
type 3 is the local dispatch, which is not a relay emit. -/
theorem C4_witness :
    Effect.isEmit (Effect.dispatchAddChild demoChildPayload) = false :=
  (C4_no_emit_without_room 3 none).2 rfl
    (Effect.dispatchAddChild demoChildPayload) (by decide)

/-- C6: for every gesture the panel item handles, the local-store dispatch
is the first effect and everything after it is a relay emit: the mutation
is applied locally strictly before any network relay is attempted. -/
theorem C6_dispatch_precedes_emit (id : Int) (roomCode : Option String) :
    ∃ cd tail, handleClick id roomCode = Effect.dispatchAddChild cd :: tail ∧
      ∀ e ∈ tail, Effect.isEmit e = true := by
  refine ⟨{ type := "HTML Element", typeId := id, childId := none,
            contextParam := { allContext := [] } },
          if truthy roomCode then
            [Effect.emitEvent "addChildAction" (roomCode.getD "")
              { type := "HTML Element", typeId := id, childId := none,
                contextParam := { allContext := [] } }]
          else [], ?_, ?_⟩
  · by_cases h : truthy roomCode = true <;> simp [handleClick, h]
  · by_cases h : truthy roomCode = true <;> simp [h, Effect.isEmit]

/-- C6 witness: in room "room1" a click on element type 3 dispatches first
and relays afterwards. -/
theorem C6_witness :
    ∃ cd tail,
      handleClick 3 (some "room1") = Effect.dispatchAddChild cd :: tail ∧
      ∀ e ∈ tail, Effect.isEmit e = true :=
  C6_dispatch_precedes_emit 3 (some "room1")

/-- C7: a rendered catalog element offers the delete affordance exactly
when its id is strictly above the built-in threshold 20, and the
affordance it offers targets all instances of that same id. -/
theorem C7_deletable_iff_custom (name : String) (id : Int) :
    ((∃ b ∈ renderHTMLItem name id, PanelBlock.offersDelete b = true) ↔
      20 < id) ∧
    (∀ b ∈ renderHTMLItem name id, PanelBlock.offersDelete b = true →
      b = PanelBlock.customDiv name id) := by
  by_cases h : id ≤ 20
  · have h2 : ¬20 < id := by omega
    constructor
    · simp [renderHTMLItem, h, h2, PanelBlock.offersDelete]
    · intro b hb hdel
      simp [renderHTMLItem, h, h2] at hb
      subst hb
      simp [PanelBlock.offersDelete] at hdel
  · have h3 : 20 < id := by omega
    constructor
    · simp [renderHTMLItem, h, h3, PanelBlock.offersDelete]
    · intro b hb hdel
      simp [renderHTMLItem, h, h3] at hb
      exact hb

/-- C7 witness: a catalog element with id 21 offers the delete
affordance. -/
theorem C7_witness :
    ∃ b ∈ renderHTMLItem "customtag" 21, PanelBlock.offersDelete b = true :=
  (C7_deletable_iff_custom "customtag" 21).1.mpr (by decide)

/-- C8: replay is deterministic — the same sequence of mutation intents
applied in the same order to two stores holding equal initial trees yields
equal resulting trees. -/
theorem C8_replay_deterministic (intents : List MutationIntent) (t1 t2 : Tree)
    (h : t1 = t2) : replay intents t1 = replay intents t2 := by rw [h]

/-- C8 witness: a concrete two-intent replay agrees with itself on two
stores starting from the same one-node tree. -/
theorem C8_witness :
    replay [MutationIntent.addChildIntent demoChildPayload,
            MutationIntent.deleteAllIntent 3] demoTree =
      replay [MutationIntent.addChildIntent demoChildPayload,
              MutationIntent.deleteAllIntent 3] demoTree :=
  C8_replay_deterministic _ demoTree demoTree rfl

/-- C9: while a room is active, the payload emitted to the relay is the
very same value as the payload dispatched to the local store (same type,
typeId, childId and contextParam). -/
theorem C9_emitted_payload_equals_dispatched (id : Int) (rc : String)
    (hactive : rc ≠ "") :
    ∃ cd, handleClick id (some rc) =
        [Effect.dispatchAddChild cd,
         Effect.emitEvent "addChildAction" rc cd] ∧
      cd.type = "HTML Element" ∧ cd.typeId = id ∧ cd.childId = none ∧
      cd.contextParam = { allContext := [] } := by
  refine ⟨{ type := "HTML Element", typeId := id, childId := none,
            contextParam := { allContext := [] } }, ?_, rfl, rfl, rfl, rfl⟩
  simp [handleClick, truthy, hactive]

/-- C9 witness: in room "room1" a click on element type 3 emits exactly the
dispatched payload. -/
theorem C9_witness :
    ∃ cd, handleClick 3 (some "room1") =
        [Effect.dispatchAddChild cd,
         Effect.emitEvent "addChildAction" "room1" cd] ∧
      cd.type = "HTML Element" ∧ cd.typeId = 3 ∧ cd.childId = none ∧
      cd.contextParam = { allContext := [] } :=
  C9_emitted_payload_equals_dispatched 3 "room1" (by decide)

/-- C1 counterexample: cloning alice's project with bob's session yields a
clone whose `username` is "bob" and whose `createdAt` is the clone time
500, while the source has username "alice" and createdAt 100 — so not all
fields other than identity, `published` and `forked` equal the source's. -/
theorem C1_counterexample :
    (cloneProject [aliceDoc] 1 bobSess 500 77).1.toOption.map
        ProjectDoc.username = some "bob" ∧
    aliceDoc.username = "alice" ∧
    (cloneProject [aliceDoc] 1 bobSess 500 77).1.toOption.map
        ProjectDoc.createdAt = some 500 ∧
    aliceDoc.createdAt = 100 := by decide

/-- C1 (amended): the clone of an existing project has a new identity,
`published = false`, the `forked` provenance tag built from the source
owner's username, the payload's forked flag set, ownership fields set to
the requester's session identity, `createdAt` set to the clone time, and
the remaining fields (name, comments, payload content and inner fields)
equal to the source's at clone time. -/
theorem C1_amended_clone_fields (db : DB) (i : Nat) (sess : Session)
    (now freshId : Nat) (src : ProjectDoc)
    (hfind : db.find? (fun d => d.docId == i) = some src)
    (hfresh : ∀ d ∈ db, d.docId ≠ freshId) :
    ∃ c, cloneProject db i sess now freshId = (Except.ok c, db ++ [c]) ∧
      c.docId = freshId ∧ c.docId ≠ src.docId ∧
      c.published = false ∧
      c.forkedTag = some ("Forked from " ++ src.username) ∧
      c.project.forked = true ∧
      c.userId = sess.ssid ∧ c.username = sess.username ∧
      c.createdAt = now ∧
      c.name = src.name ∧ c.comments = src.comments ∧
      c.project.content = src.project.content ∧
      c.project.innerId = src.project.innerId ∧
      c.project.innerPublished = src.project.innerPublished := by
  have hne : src.docId ≠ freshId := hfresh src (List.mem_of_find?_eq_some hfind)
  refine ⟨{ src with
      userId := sess.ssid,
      project := { src.project with forked := true },
      published := false,
      forkedTag := some ("Forked from " ++ src.username),
      username := sess.username,
      docId := freshId,
      createdAt := now }, ?_, rfl, fun hc => hne hc.symm,
    rfl, rfl, rfl, rfl, rfl, rfl, rfl, rfl, rfl, rfl, rfl⟩
  simp [cloneProject, hfind]

/-- C1 amended witness: bob clones alice's project at time 500 with fresh
id 77. -/
theorem C1_amended_witness :
    ∃ c, cloneProject [aliceDoc] 1 bobSess 500 77 =
        (Except.ok c, [aliceDoc] ++ [c]) ∧
      c.docId = 77 ∧ c.docId ≠ aliceDoc.docId ∧
      c.published = false ∧
      c.forkedTag = some ("Forked from " ++ aliceDoc.username) ∧
      c.project.forked = true ∧
      c.userId = bobSess.ssid ∧ c.username = bobSess.username ∧
      c.createdAt = 500 ∧
      c.name = aliceDoc.name ∧ c.comments = aliceDoc.comments ∧
      c.project.content = aliceDoc.project.content ∧
      c.project.innerId = aliceDoc.project.innerId ∧
      c.project.innerPublished = aliceDoc.project.innerPublished :=
  C1_amended_clone_fields [aliceDoc] 1 bobSess 500 77 aliceDoc
    (by decide) (by decide)

/-- C2 counterexample: bob's publish request naming alice's project by its
`_id` does not fail — it updates alice's persisted project in place,
overwriting its owner with bob's session identity. -/
theorem C2_counterexample :
    aliceDoc.userId ≠ bobSess.ssid ∧
    (publishProject [aliceDoc] bobPublishReq bobSess 200 99).2 =
      [{ aliceDoc with
          project := stripPubAndId alicePayload,
          createdAt := 200, published := true, comments := [],
          name := "taken", userId := "bob-id", username := "bob" }] ∧
    (publishProject [aliceDoc] bobPublishReq bobSess 200 99).2 ≠
      [aliceDoc] := by decide

/-- C2 (amended): publishing by `_id` is not ownership-checked — a publish
request whose `_id` names any persisted project, whoever owns it, succeeds
and updates that project in place, overwriting its fields (including
`userId` and `username`) from the request and the requester's session. -/
theorem C2_amended_publish_not_ownership_checked (db : DB)
    (req : PublishReq) (sess : Session) (now freshId i : Nat)
    (d : ProjectDoc)
    (hid : req.reqId = some i)
    (hfind : db.find? (fun x => x.docId == i) = some d) :
    publishProject db req sess now freshId =
      ({ d with
          project := stripPubAndId req.project, createdAt := now,
          published := true, comments := req.comments, name := req.name,
          userId := sess.ssid, username := sess.username },
       updateFirst (fun x => x.docId == i)
         (fun x => { x with
             project := stripPubAndId req.project,
             createdAt := now, published := true, comments := req.comments,
             name := req.name, userId := sess.ssid,
             username := sess.username }) db) := by
  simp [publishProject, hid, findOneAndUpdate, hfind]

/-- C2 amended witness: bob's publish request naming alice's project by id
1 updates it in place. -/
theorem C2_amended_witness :
    publishProject [aliceDoc] bobPublishReq bobSess 200 99 =
      ({ aliceDoc with
          project := stripPubAndId bobPublishReq.project,
          createdAt := 200, published := true,
          comments := bobPublishReq.comments, name := bobPublishReq.name,
          userId := bobSess.ssid, username := bobSess.username },
       updateFirst (fun x => x.docId == 1)
         (fun x => { x with
             project := stripPubAndId bobPublishReq.project,
             createdAt := 200, published := true,
             comments := bobPublishReq.comments, name := bobPublishReq.name,
             userId := bobSess.ssid, username := bobSess.username })
         [aliceDoc]) :=
  C2_amended_publish_not_ownership_checked [aliceDoc] bobPublishReq bobSess
    200 99 1 aliceDoc rfl (by decide)

/-- C3: an unpublish request for a project owned by user A made with user
B's session identity (B ≠ A) takes the error path and leaves the persisted
store — in particular the project's `published` flag — unchanged. -/
theorem C3_unpublish_wrong_owner_fails (db : DB) (i : Nat)
    (owner ssidB : String) (dA : ProjectDoc)
    (_hmem : dA ∈ db) (_hid : dA.docId = i) (hownA : dA.userId = owner)
    (hne : owner ≠ ssidB)
    (huniq : ∀ d ∈ db, d.docId = i → d = dA) :
    (unpublishProject db i ssidB).1 =
      Except.error "Error in marketplaceController.unpublishProject" ∧
    (unpublishProject db i ssidB).2 = db := by
  have hnone :
      db.find? (fun d => d.docId == i && d.userId == ssidB) = none := by
    rw [List.find?_eq_none]
    intro d hd
    simp only [Bool.and_eq_true, beq_iff_eq, not_and]
    intro h1 h2
    have hdA := huniq d hd h1
    rw [hdA, hownA] at h2
    exact hne h2
  constructor <;> simp [unpublishProject, findOneAndUpdate, hnone]

/-- C3 witness: bob's session cannot unpublish alice's project. -/
theorem C3_witness :
    (unpublishProject [aliceDoc] 1 "bob-id").1 =
      Except.error "Error in marketplaceController.unpublishProject" ∧
    (unpublishProject [aliceDoc] 1 "bob-id").2 = [aliceDoc] :=
  C3_unpublish_wrong_owner_fails [aliceDoc] 1 "alice-id" "bob-id" aliceDoc
    (by decide) rfl rfl (by decide) (by decide)

/-- C5: a publish request whose `_id` is not a valid object id creates a
new persisted project with `published = true`; publishing again with that
project's `_id` updates the same record in place — the store keeps a
single document at that `_id`, no duplicate is created. -/
theorem C5_publish_create_then_update (db : DB) (req1 req2 : PublishReq)
    (s1 s2 : Session) (t1 f1 t2 f2 : Nat)
    (h1 : req1.reqId = none)
    (hfresh : ∀ d ∈ db, d.docId ≠ f1)
    (h2 : req2.reqId = some f1) :
    ∃ d1 d2,
      publishProject db req1 s1 t1 f1 = (d1, db ++ [d1]) ∧
      d1.published = true ∧ d1.docId = f1 ∧
      publishProject (db ++ [d1]) req2 s2 t2 f2 = (d2, db ++ [d2]) ∧
      d2.published = true ∧ d2.docId = f1 := by
  have hnone : db.find? (fun d => d.docId == f1) = none := by
    rw [List.find?_eq_none]
    intro d hd
    simp only [beq_iff_eq]
    exact hfresh d hd
  refine ⟨{ docId := f1, project := stripPubAndId req1.project,
            createdAt := t1, published := true, comments := req1.comments,
            name := req1.name, userId := s1.ssid, username := s1.username,
            forkedTag := none },
          { docId := f1, project := stripPubAndId req2.project,
            createdAt := t2, published := true, comments := req2.comments,
            name := req2.name, userId := s2.ssid, username := s2.username,
            forkedTag := none }, ?_, rfl, rfl, ?_, rfl, rfl⟩
  · simp [publishProject, h1]
  · set d1 : ProjectDoc :=
      { docId := f1, project := stripPubAndId req1.project,
        createdAt := t1, published := true, comments := req1.comments,
        name := req1.name, userId := s1.ssid, username := s1.username,
        forkedTag := none } with hdef
    have hfind : (db ++ [d1]).find? (fun d => d.docId == f1) = some d1 := by
      rw [List.find?_append, hnone]
      simp [hdef]
    have hupd : updateFirst (fun d => d.docId == f1)
        (fun d => { d with
            project := stripPubAndId req2.project, createdAt := t2,
            published := true, comments := req2.comments,
            name := req2.name, userId := s2.ssid,
            username := s2.username }) (db ++ [d1]) =
        db ++ [{ d1 with
            project := stripPubAndId req2.project, createdAt := t2,
            published := true, comments := req2.comments,
            name := req2.name, userId := s2.ssid,
            username := s2.username }] := by
      rw [updateFirst_append_left_none _ _ _ _ hnone]
      simp [updateFirst, hdef]
    simp [publishProject, h2, findOneAndUpdate, hfind, hupd, hdef]

/-- C5 witness: bob publishes a project with an invalid `_id` into an empty
store, then republishes it under the created `_id`. -/
theorem C5_witness :
    ∃ d1 d2,
      publishProject []
          { reqId := none, project := alicePayload, comments := [],
            name := "fresh" } bobSess 10 5 = (d1, [] ++ [d1]) ∧
      d1.published = true ∧ d1.docId = 5 ∧
      publishProject ([] ++ [d1])
          { reqId := some 5, project := alicePayload, comments := [],
            name := "fresh2" } bobSess 11 6 = (d2, [] ++ [d2]) ∧
      d2.published = true ∧ d2.docId = 5 :=
  C5_publish_create_then_update []
    { reqId := none, project := alicePayload, comments := [],
      name := "fresh" }
    { reqId := some 5, project := alicePayload, comments := [],
      name := "fresh2" }
    bobSess bobSess 10 5 11 6 rfl (by decide) rfl

/-- C10: in both the update branch and the create branch of publishing,
the nested payload persisted with the document has had its own `_id` and
`published` fields removed: the stored sub-document never carries an inner
`_id` or an inner `published` flag, and the returned document is in the
resulting store. -/
theorem C10_persisted_payload_stripped (db : DB) (req : PublishReq)
    (sess : Session) (now freshId : Nat) :
    (publishProject db req sess now freshId).1.project.innerId = none ∧
    (publishProject db req sess now freshId).1.project.innerPublished
      = none ∧
    (publishProject db req sess now freshId).1 ∈
      (publishProject db req sess now freshId).2 := by
  cases hr : req.reqId with
  | none =>
    refine ⟨?_, ?_, ?_⟩ <;> simp [publishProject, hr, stripPubAndId]
  | some i =>
    cases hf : db.find? (fun d => d.docId == i) with
    | none =>
      refine ⟨?_, ?_, ?_⟩ <;>
        simp [publishProject, hr, findOneAndUpdate, hf, stripPubAndId]
    | some d =>
      have hm := mem_updateFirst_of_find? (fun x => x.docId == i)
        (fun x => { x with
            project := stripPubAndId req.project, createdAt := now,
            published := true, comments := req.comments, name := req.name,
            userId := sess.ssid, username := sess.username }) hf
      refine ⟨?_, ?_, ?_⟩
      · simp [publishProject, hr, findOneAndUpdate, hf, stripPubAndId]
      · simp [publishProject, hr, findOneAndUpdate, hf, stripPubAndId]
      · simp only [publishProject, hr, findOneAndUpdate, hf]
        simpa [stripPubAndId] using hm

end ReacType
